import Mathlib

/-!
Shallow embedding of the AI-state coordinator of
`src/renderer/src/context/ai-state-context.tsx`.

The store owns a current `AiState`, a single timer handle (`timerRef`),
and — to model the JavaScript runtime faithfully — the list of all
`setTimeout` callbacks ever created, each carrying its absolute firing
deadline and an `alive` flag (cleared by `clearTimeout` or by firing).
State updates performed through `setAiStateInternal` (React's `useState`
setter, the synchronous notify path towards all context subscribers) are
recorded in a notification `log`.

Time is modelled in milliseconds as `Nat`; `elapse now st` runs the event
loop up to time `now`, firing every still-alive timer whose deadline has
passed.
-/

/-- The `AiStateEnum` of the source: a closed six-variant enumeration. -/
inductive AiState where
  | idle
  | thinkingSpeaking
  | interrupted
  | loading
  | listening
  | waiting
deriving DecidableEq, Repr

/-- `const initialState: AiState = AiStateEnum.LOADING`. -/
def initialState : AiState := AiState.loading

/-- One `setTimeout` callback: its absolute deadline (creation time plus
delay) and whether it is still pending (`clearTimeout` and firing both
set `alive := false`). -/
structure Timer where
  deadline : Nat
  alive : Bool
deriving DecidableEq, Repr

/-- The provider's mutable state: `aiState` (here `current`), the list of
all timers ever created (indices are the `setTimeout` handles), the
stored handle `timerRef` (`null` = `none`), and the log of values passed
to `setAiStateInternal`, i.e. the notifications broadcast to
subscribers. -/
structure Store where
  current : AiState
  timers : List Timer
  timerRef : Option Nat
  log : List AiState
deriving DecidableEq, Repr

/-- The provider's initial configuration: `useState(initialState)` with
`timerRef = null` and no timers created. -/
def initStore : Store :=
  { current := initialState, timers := [], timerRef := none, log := [] }

/-- The fixed delay passed to `setTimeout` in `setAiState`: 2000 ms. -/
def expiryDelayMs : Nat := 2000

/-- Look a timer up by its handle (list index). -/
def getTimer : List Timer → Nat → Option Timer
  | [], _ => none
  | tm :: _, 0 => some tm
  | _ :: rest, i + 1 => getTimer rest i

/-- Replace the timer stored under a handle. -/
def setTimer : List Timer → Nat → Timer → List Timer
  | [], _, _ => []
  | _ :: rest, 0, tm => tm :: rest
  | hd :: rest, i + 1, tm => hd :: setTimer rest i tm

/-- `clearTimeout(handle)`: the referenced callback will never run.
Clearing an unknown or already-fired handle is a no-op. -/
def clearTimeout (ts : List Timer) (i : Nat) : List Timer :=
  match getTimer ts i with
  | some tm => setTimer ts i { tm with alive := false }
  | none => ts

/-- `setAiState(newState)` of the source, called at absolute time `now`.

Transient branch (`newState` is `INTERRUPTED` or `WAITING`):
`setAiStateInternal(newState)`; `if (timerRef.current) clearTimeout(...)`;
`timerRef.current = setTimeout(<fire to IDLE>, 2000)`.

Other states: `setAiStateInternal(newState)`; `if (timerRef.current)
{ clearTimeout(...); timerRef.current = null; }`. -/
def setAiState (now : Nat) (newState : AiState) (st : Store) : Store :=
  if newState = AiState.interrupted ∨ newState = AiState.waiting then
    match st.timerRef with
    | some i =>
      { current := newState
        timers := clearTimeout st.timers i ++
          [{ deadline := now + expiryDelayMs, alive := true }]
        timerRef := some (clearTimeout st.timers i).length
        log := st.log ++ [newState] }
    | none =>
      { current := newState
        timers := st.timers ++
          [{ deadline := now + expiryDelayMs, alive := true }]
        timerRef := some st.timers.length
        log := st.log ++ [newState] }
  else
    match st.timerRef with
    | some i =>
      { current := newState
        timers := clearTimeout st.timers i
        timerRef := none
        log := st.log ++ [newState] }
    | none =>
      { current := newState
        timers := st.timers
        timerRef := st.timerRef
        log := st.log ++ [newState] }

/-- `resetState` of the source: `setAiState(AiStateEnum.IDLE)`. -/
def resetState (now : Nat) (st : Store) : Store :=
  setAiState now AiState.idle st

/-- The callback armed by `setAiState` for timer handle `i`:
`setAiStateInternal(AiStateEnum.IDLE); timerRef.current = null;`.
Runs only if the timer is still alive; running consumes the timer. -/
def fireTimer (i : Nat) (st : Store) : Store :=
  match getTimer st.timers i with
  | some tm =>
    if tm.alive then
      { current := AiState.idle
        timers := setTimer st.timers i { tm with alive := false }
        timerRef := none
        log := st.log ++ [AiState.idle] }
    else st
  | none => st

/-- Event-loop step: run timer `i` if it exists and its deadline has
passed (cancelled timers never run). -/
def fireDue (now : Nat) (i : Nat) (st : Store) : Store :=
  match getTimer st.timers i with
  | some tm => if tm.deadline ≤ now then fireTimer i st else st
  | none => st

/-- Run `fuel` event-loop steps over handles `i, i+1, ...`. -/
def elapseFrom (now : Nat) : Nat → Nat → Store → Store
  | _, 0, st => st
  | i, fuel + 1, st => elapseFrom now (i + 1) fuel (fireDue now i st)

/-- Advance the event loop to absolute time `now`: every created timer
whose deadline has passed and that is still alive fires. -/
def elapse (now : Nat) (st : Store) : Store :=
  elapseFrom now 0 st.timers.length st

/-- The memoized `stateChecks` object of the source. -/
structure StateChecks where
  isIdle : Bool
  isThinkingSpeaking : Bool
  isInterrupted : Bool
  isLoading : Bool
  isListening : Bool
  isWaiting : Bool
deriving DecidableEq, Repr

/-- `stateChecks`: each field is `aiState === <variant>`. -/
def stateChecks (aiState : AiState) : StateChecks :=
  { isIdle := aiState = AiState.idle
    isThinkingSpeaking := aiState = AiState.thinkingSpeaking
    isInterrupted := aiState = AiState.interrupted
    isLoading := aiState = AiState.loading
    isListening := aiState = AiState.listening
    isWaiting := aiState = AiState.waiting }

/-- How many of the six derived predicates are true. -/
def countTrue (c : StateChecks) : Nat :=
  c.isIdle.toNat + c.isThinkingSpeaking.toNat + c.isInterrupted.toNat +
    c.isLoading.toNat + c.isListening.toNat + c.isWaiting.toNat

/-- The derived predicate matching a given state. -/
def checkFor : AiState → StateChecks → Bool
  | AiState.idle, c => c.isIdle
  | AiState.thinkingSpeaking, c => c.isThinkingSpeaking
  | AiState.interrupted, c => c.isInterrupted
  | AiState.loading, c => c.isLoading
  | AiState.listening, c => c.isListening
  | AiState.waiting, c => c.isWaiting

/-- The data carried by `AiStateContextType` (the function members
`setAiState` and `resetState` act on the store and are modelled by the
top-level functions of the same names). -/
structure AiStateContextType where
  aiState : AiState
  checks : StateChecks
deriving DecidableEq, Repr

/-- The memoized `contextValue` published by the provider. -/
def contextValue (st : Store) : AiStateContextType :=
  { aiState := st.current, checks := stateChecks st.current }

/-- The single error kind: using the store outside a provider. -/
inductive UsageError where
  | usage : String → UsageError
deriving DecidableEq, Repr

/-- `useAiState`: `useContext` yields the context value or `null`; on
`null` the hook throws, otherwise it returns the context. -/
def useAiState (ctx : Option AiStateContextType) :
    Except UsageError AiStateContextType :=
  match ctx with
  | none =>
    Except.error (UsageError.usage
      "useAiState must be used within a AiStateProvider")
  | some context => Except.ok context

/-- The two auto-expiring states. -/
def transientState (s : AiState) : Prop :=
  s = AiState.interrupted ∨ s = AiState.waiting

instance (s : AiState) : Decidable (transientState s) := by
  unfold transientState; infer_instance

/-- No timer in the list is still pending. -/
def deadAll (ts : List Timer) : Prop := ∀ tm ∈ ts, tm.alive = false

/-- The pending (alive) timers. -/
def aliveTimers (ts : List Timer) : List Timer :=
  ts.filter (fun tm => tm.alive)

/-- Number of pending timers. -/
def aliveCount (st : Store) : Nat := (aliveTimers st.timers).length

/-- Deadlines of the pending timers (the observable part of the timer
state). -/
def aliveDeadlines (st : Store) : List Nat :=
  (aliveTimers st.timers).map (fun tm => tm.deadline)

/-- Store invariant: if a handle is stored it denotes the single pending
timer, which is the most recently created one, and the current state is
transient; otherwise no timer is pending and the state is not
transient. -/
def StoreInv (st : Store) : Prop :=
  (∀ i, st.timerRef = some i →
    transientState st.current ∧
      ∃ pre d, st.timers = pre ++ [{ deadline := d, alive := true }] ∧
        deadAll pre ∧ i = pre.length) ∧
  (st.timerRef = none → ¬ transientState st.current ∧ deadAll st.timers)

/-- Configurations reachable from the initial one by `setAiState` calls
and timer firings. -/
inductive Reachable : Store → Prop where
  | init : Reachable initStore
  | step_set : ∀ st now s, Reachable st → Reachable (setAiState now s st)
  | step_fire : ∀ st i, Reachable st → Reachable (fireTimer i st)

/-! ### List-level helper lemmas -/

lemma getTimer_mem : ∀ (ts : List Timer) (i : Nat) (tm : Timer),
    getTimer ts i = some tm → tm ∈ ts := by
  intro ts
  induction ts with
  | nil => intro i tm h; simp [getTimer] at h
  | cons hd rest ih =>
    intro i tm h
    cases i with
    | zero =>
      simp [getTimer] at h
      simp [h]
    | succ j => exact List.mem_cons_of_mem _ (ih j tm h)

lemma getTimer_append_lt : ∀ (pre l : List Timer) (i : Nat), i < pre.length →
    getTimer (pre ++ l) i = getTimer pre i := by
  intro pre
  induction pre with
  | nil => intro l i h; simp at h
  | cons hd rest ih =>
    intro l i h
    cases i with
    | zero => rfl
    | succ j => exact ih l j (by simpa using h)

lemma getTimer_append_length : ∀ (pre : List Timer) (tm : Timer),
    getTimer (pre ++ [tm]) pre.length = some tm := by
  intro pre
  induction pre with
  | nil => intro tm; rfl
  | cons hd rest ih => intro tm; exact ih tm

lemma setTimer_append_length : ∀ (pre : List Timer) (a b : Timer),
    setTimer (pre ++ [a]) pre.length b = pre ++ [b] := by
  intro pre
  induction pre with
  | nil => intro a b; rfl
  | cons hd rest ih =>
    intro a b
    show hd :: setTimer (rest ++ [a]) rest.length b = hd :: (rest ++ [b])
    rw [ih]

lemma setTimer_length : ∀ (ts : List Timer) (i : Nat) (tm : Timer),
    (setTimer ts i tm).length = ts.length := by
  intro ts
  induction ts with
  | nil => intro i tm; rfl
  | cons hd rest ih =>
    intro i tm
    cases i with
    | zero => rfl
    | succ j => show (setTimer rest j tm).length + 1 = rest.length + 1; rw [ih]

lemma clearTimeout_last (pre : List Timer) (d : Nat) :
    clearTimeout (pre ++ [{ deadline := d, alive := true }]) pre.length
      = pre ++ [{ deadline := d, alive := false }] := by
  unfold clearTimeout
  rw [getTimer_append_length]
  exact setTimer_append_length pre _ _

lemma deadAll_nil : deadAll [] := by
  intro tm h
  simp at h

lemma deadAll_append {pre l : List Timer} (h1 : deadAll pre) (h2 : deadAll l) :
    deadAll (pre ++ l) := by
  intro tm hm
  rcases List.mem_append.mp hm with h | h
  · exact h1 tm h
  · exact h2 tm h

lemma deadAll_singleton (tm : Timer) (h : tm.alive = false) : deadAll [tm] := by
  intro x hx
  rw [List.mem_singleton] at hx
  rw [hx]
  exact h

lemma getTimer_last_alive : ∀ (pre : List Timer) (x : Timer) (i : Nat) (tm : Timer),
    deadAll pre → getTimer (pre ++ [x]) i = some tm → tm.alive = true →
    i = pre.length ∧ tm = x := by
  intro pre
  induction pre with
  | nil =>
    intro x i tm _ hget halive
    cases i with
    | zero =>
      simp [getTimer] at hget
      exact ⟨rfl, hget.symm⟩
    | succ j => simp [getTimer] at hget
  | cons hd rest ih =>
    intro x i tm hdead hget halive
    cases i with
    | zero =>
      simp [getTimer] at hget
      have hh : hd.alive = false := hdead hd (List.mem_cons_self hd rest)
      simp [hget, halive] at hh
    | succ j =>
      have hrest : deadAll rest := fun t ht => hdead t (List.mem_cons_of_mem hd ht)
      obtain ⟨h1, h2⟩ := ih x j tm hrest hget halive
      exact ⟨by simp [h1], h2⟩

lemma aliveTimers_append (a b : List Timer) :
    aliveTimers (a ++ b) = aliveTimers a ++ aliveTimers b := by
  unfold aliveTimers
  exact List.filter_append _ _

lemma aliveTimers_deadAll : ∀ {ts : List Timer}, deadAll ts → aliveTimers ts = [] := by
  intro ts
  induction ts with
  | nil => intro _; rfl
  | cons hd rest ih =>
    intro h
    have hh : hd.alive = false := h hd (List.mem_cons_self hd rest)
    have hr : deadAll rest := fun t ht => h t (List.mem_cons_of_mem hd ht)
    show List.filter (fun tm => tm.alive) (hd :: rest) = []
    rw [List.filter_cons_of_neg (by simp [hh])]
    exact ih hr

lemma aliveTimers_true_singleton (d : Nat) :
    aliveTimers [{ deadline := d, alive := true }]
      = [{ deadline := d, alive := true }] := rfl

/-! ### Event-loop helper lemmas -/

lemma fireDue_eq_self {now i : Nat} {st : Store}
    (h : ∀ tm, getTimer st.timers i = some tm →
      tm.alive = false ∨ ¬ tm.deadline ≤ now) :
    fireDue now i st = st := by
  unfold fireDue
  cases hget : getTimer st.timers i with
  | none => rfl
  | some tm =>
    rcases h tm hget with hdead | hnle
    · simp only [fireTimer, hget]
      split
      · simp [hdead]
      · rfl
    · simp [hnle]

lemma elapseFrom_eq_self {now : Nat} : ∀ (fuel i : Nat) {st : Store},
    (∀ tm ∈ st.timers, tm.alive = false ∨ ¬ tm.deadline ≤ now) →
    elapseFrom now i fuel st = st := by
  intro fuel
  induction fuel with
  | zero => intro i st _; rfl
  | succ f ih =>
    intro i st h
    have hfd : fireDue now i st = st :=
      fireDue_eq_self (fun tm hget => h tm (getTimer_mem _ _ _ hget))
    show elapseFrom now (i + 1) f (fireDue now i st) = st
    rw [hfd]
    exact ih (i + 1) h

lemma elapse_eq_self {now : Nat} {st : Store}
    (h : ∀ tm ∈ st.timers, tm.alive = false ∨ ¬ tm.deadline ≤ now) :
    elapse now st = st :=
  elapseFrom_eq_self _ _ h

lemma elapseFrom_skip {now : Nat} : ∀ (m i fuel : Nat) {st : Store},
    (∀ j tm, i ≤ j → j < i + m → getTimer st.timers j = some tm →
      tm.alive = false ∨ ¬ tm.deadline ≤ now) →
    elapseFrom now i (m + fuel) st = elapseFrom now (i + m) fuel st := by
  intro m
  induction m with
  | zero =>
    intro i fuel st _
    rw [Nat.zero_add, Nat.add_zero]
  | succ mm ih =>
    intro i fuel st h
    have hfd : fireDue now i st = st :=
      fireDue_eq_self (fun tm hget => h i tm (Nat.le_refl i) (by omega) hget)
    have hrw : mm + 1 + fuel = (mm + fuel) + 1 := by omega
    rw [hrw]
    show elapseFrom now (i + 1) (mm + fuel) (fireDue now i st) = _
    rw [hfd]
    have hstep := ih (i + 1) fuel
      (fun j tm hj1 hj2 hget => h j tm (by omega) (by omega) hget)
    rw [hstep]
    have harith : i + 1 + mm = i + (mm + 1) := by omega
    rw [harith]

lemma elapse_fire_last {now d : Nat} {st : Store} {pre : List Timer}
    (hts : st.timers = pre ++ [{ deadline := d, alive := true }])
    (hdead : deadAll pre) (hdue : d ≤ now) :
    elapse now st =
      { current := AiState.idle
        timers := pre ++ [{ deadline := d, alive := false }]
        timerRef := none
        log := st.log ++ [AiState.idle] } := by
  have hlen : st.timers.length = pre.length + 1 := by
    rw [hts]; simp
  have hcond : ∀ j tm, 0 ≤ j → j < 0 + pre.length →
      getTimer st.timers j = some tm → tm.alive = false ∨ ¬ tm.deadline ≤ now := by
    intro j tm _ hj hget
    rw [hts, getTimer_append_lt pre _ j (by omega)] at hget
    exact Or.inl (hdead tm (getTimer_mem _ _ _ hget))
  have hskip := elapseFrom_skip pre.length 0 1 hcond
  unfold elapse
  rw [hlen]
  have hone : pre.length + 1 = pre.length + 1 := rfl
  rw [show pre.length + 1 = pre.length + 1 from rfl] at hskip ⊢
  rw [hskip]
  rw [Nat.zero_add]
  have hget : getTimer st.timers pre.length = some { deadline := d, alive := true } := by
    rw [hts]; exact getTimer_append_length pre _
  show fireDue now pre.length st = _
  unfold fireDue
  rw [hget]
  simp only [hdue, if_pos]
  unfold fireTimer
  rw [hget]
  simp [hts, setTimer_append_length]

/-! ### Basic facts about `setAiState` -/

lemma setAiState_current (now : Nat) (s : AiState) (st : Store) :
    (setAiState now s st).current = s := by
  unfold setAiState
  split <;> cases href : st.timerRef <;> rfl

lemma setAiState_log (now : Nat) (s : AiState) (st : Store) :
    (setAiState now s st).log = st.log ++ [s] := by
  unfold setAiState
  split <;> cases href : st.timerRef <;> rfl

/-! ### Invariant lemmas -/

lemma storeInv_some {st : Store} (h : StoreInv st) {i : Nat}
    (href : st.timerRef = some i) :
    transientState st.current ∧
      ∃ pre d, st.timers = pre ++ [{ deadline := d, alive := true }] ∧
        deadAll pre ∧ i = pre.length := by
  unfold StoreInv at h
  exact h.1 i href

lemma storeInv_none {st : Store} (h : StoreInv st)
    (href : st.timerRef = none) :
    ¬ transientState st.current ∧ deadAll st.timers := by
  unfold StoreInv at h
  exact h.2 href

lemma storeInv_initStore : StoreInv initStore := by
  unfold StoreInv
  constructor
  · intro i h
    simp [initStore] at h
  · intro _
    refine ⟨?_, deadAll_nil⟩
    intro h
    simp [transientState, initStore, initialState] at h

lemma setAiState_transient_spec (now : Nat) {s : AiState} {st : Store}
    (hs : s = AiState.interrupted ∨ s = AiState.waiting) (hInv : StoreInv st) :
    ∃ pre, deadAll pre ∧
      setAiState now s st =
        { current := s
          timers := pre ++ [{ deadline := now + expiryDelayMs, alive := true }]
          timerRef := some pre.length
          log := st.log ++ [s] } := by
  cases href : st.timerRef with
  | some i =>
    obtain ⟨-, pre, d, hts, hdead, hi⟩ := storeInv_some hInv href
    refine ⟨clearTimeout st.timers i, ?_, ?_⟩
    · rw [hts, hi, clearTimeout_last]
      exact deadAll_append hdead (deadAll_singleton _ rfl)
    · unfold setAiState
      rw [if_pos hs, href]
  | none =>
    obtain ⟨-, hdead⟩ := storeInv_none hInv href
    refine ⟨st.timers, hdead, ?_⟩
    unfold setAiState
    rw [if_pos hs, href]

lemma setAiState_stable_spec (now : Nat) {s : AiState} {st : Store}
    (hs : ¬(s = AiState.interrupted ∨ s = AiState.waiting)) (hInv : StoreInv st) :
    ∃ ts, deadAll ts ∧
      setAiState now s st =
        { current := s, timers := ts, timerRef := none, log := st.log ++ [s] } := by
  cases href : st.timerRef with
  | some i =>
    obtain ⟨-, pre, d, hts, hdead, hi⟩ := storeInv_some hInv href
    refine ⟨clearTimeout st.timers i, ?_, ?_⟩
    · rw [hts, hi, clearTimeout_last]
      exact deadAll_append hdead (deadAll_singleton _ rfl)
    · unfold setAiState
      rw [if_neg hs, href]
  | none =>
    obtain ⟨-, hdead⟩ := storeInv_none hInv href
    refine ⟨st.timers, hdead, ?_⟩
    unfold setAiState
    rw [if_neg hs, href]

lemma storeInv_setAiState (now : Nat) (s : AiState) {st : Store}
    (hInv : StoreInv st) : StoreInv (setAiState now s st) := by
  by_cases hs : s = AiState.interrupted ∨ s = AiState.waiting
  · obtain ⟨pre, hdead, heq⟩ := setAiState_transient_spec now hs hInv
    rw [heq]
    unfold StoreInv
    constructor
    · intro j hj
      simp at hj
      exact ⟨hs, pre, now + expiryDelayMs, rfl, hdead, hj.symm⟩
    · intro hnone
      simp at hnone
  · obtain ⟨ts, hdead, heq⟩ := setAiState_stable_spec now hs hInv
    rw [heq]
    unfold StoreInv
    constructor
    · intro j hj
      simp at hj
    · intro _
      exact ⟨hs, hdead⟩

lemma storeInv_fireTimer (i : Nat) {st : Store} (hInv : StoreInv st) :
    StoreInv (fireTimer i st) := by
  unfold fireTimer
  split
  case h_2 => exact hInv
  case h_1 tm hget =>
    by_cases halive : tm.alive = true
    · rw [if_pos halive]
      unfold StoreInv
      constructor
      · intro j hj
        simp at hj
      · intro _
        constructor
        · intro h
          simp [transientState] at h
        · cases href : st.timerRef with
          | none =>
            obtain ⟨-, hdead⟩ := storeInv_none hInv href
            have hbad := hdead tm (getTimer_mem _ _ _ hget)
            rw [halive] at hbad
            simp at hbad
          | some j =>
            obtain ⟨-, pre, d, hts, hdead, hj⟩ := storeInv_some hInv href
            rw [hts] at hget
            obtain ⟨hi, htm⟩ := getTimer_last_alive pre _ i tm hdead hget halive
            subst htm
            rw [hts, hi, setTimer_append_length]
            exact deadAll_append hdead (deadAll_singleton _ rfl)
    · rw [if_neg halive]
      exact hInv

lemma storeInv_fireDue (now i : Nat) {st : Store} (hInv : StoreInv st) :
    StoreInv (fireDue now i st) := by
  unfold fireDue
  split
  case h_2 => exact hInv
  case h_1 tm hget =>
    by_cases hle : tm.deadline ≤ now
    · rw [if_pos hle]
      exact storeInv_fireTimer i hInv
    · rw [if_neg hle]
      exact hInv

lemma storeInv_elapseFrom (now : Nat) : ∀ (fuel i : Nat) {st : Store},
    StoreInv st → StoreInv (elapseFrom now i fuel st) := by
  intro fuel
  induction fuel with
  | zero => intro i st h; exact h
  | succ f ih =>
    intro i st h
    show StoreInv (elapseFrom now (i + 1) f (fireDue now i st))
    exact ih (i + 1) (storeInv_fireDue now i h)

lemma storeInv_elapse (now : Nat) {st : Store} (hInv : StoreInv st) :
    StoreInv (elapse now st) :=
  storeInv_elapseFrom now _ _ hInv

lemma reachable_storeInv : ∀ {st : Store}, Reachable st → StoreInv st := by
  intro st h
  induction h with
  | init => exact storeInv_initStore
  | step_set st' now s _ ih => exact storeInv_setAiState now s ih
  | step_fire st' i _ ih => exact storeInv_fireTimer i ih

/-! ### Observables of the timer state -/

lemma aliveDeadlines_deadAll {st : Store} (h : deadAll st.timers) :
    aliveDeadlines st = [] := by
  unfold aliveDeadlines
  rw [aliveTimers_deadAll h]
  rfl

lemma aliveDeadlines_last {st : Store} {pre : List Timer} {d : Nat}
    (hts : st.timers = pre ++ [{ deadline := d, alive := true }])
    (hdead : deadAll pre) : aliveDeadlines st = [d] := by
  unfold aliveDeadlines
  rw [hts, aliveTimers_append, aliveTimers_deadAll hdead, aliveTimers_true_singleton]
  rfl

lemma aliveCount_deadAll {st : Store} (h : deadAll st.timers) :
    aliveCount st = 0 := by
  unfold aliveCount
  rw [aliveTimers_deadAll h]
  rfl

lemma aliveCount_last {st : Store} {pre : List Timer} {d : Nat}
    (hts : st.timers = pre ++ [{ deadline := d, alive := true }])
    (hdead : deadAll pre) : aliveCount st = 1 := by
  unfold aliveCount
  rw [hts, aliveTimers_append, aliveTimers_deadAll hdead, aliveTimers_true_singleton]
  rfl

lemma aliveDeadlines_setAiState_transient (now : Nat) {s : AiState} {st : Store}
    (hs : s = AiState.interrupted ∨ s = AiState.waiting) (hInv : StoreInv st) :
    aliveDeadlines (setAiState now s st) = [now + expiryDelayMs] := by
  obtain ⟨pre, hdead, heq⟩ := setAiState_transient_spec now hs hInv
  rw [heq]
  exact aliveDeadlines_last rfl hdead

lemma aliveDeadlines_setAiState_stable (now : Nat) {s : AiState} {st : Store}
    (hs : ¬(s = AiState.interrupted ∨ s = AiState.waiting)) (hInv : StoreInv st) :
    aliveDeadlines (setAiState now s st) = [] := by
  obtain ⟨ts, hdead, heq⟩ := setAiState_stable_spec now hs hInv
  rw [heq]
  exact aliveDeadlines_deadAll hdead

lemma setAiState_timerRef_isSome_transient (now : Nat) {s : AiState} {st : Store}
    (hs : s = AiState.interrupted ∨ s = AiState.waiting) (hInv : StoreInv st) :
    (setAiState now s st).timerRef.isSome = true := by
  obtain ⟨pre, hdead, heq⟩ := setAiState_transient_spec now hs hInv
  rw [heq]
  rfl

lemma setAiState_timerRef_stable (now : Nat) {s : AiState} {st : Store}
    (hs : ¬(s = AiState.interrupted ∨ s = AiState.waiting)) (hInv : StoreInv st) :
    (setAiState now s st).timerRef = none := by
  obtain ⟨ts, hdead, heq⟩ := setAiState_stable_spec now hs hInv
  rw [heq]

/-! ### Claim theorems -/

/-- Claim C1: for every state `s` of the six-variant enumeration, from any
prior store configuration (any prior state, any pending timer) and at any
call time, `set(s)` followed by `get()` returns `s`. -/
theorem set_then_get_C1 (now : Nat) (s : AiState) (st : Store) :
    (setAiState now s st).current = s :=
  setAiState_current now s st

/-- Claim C2: from any configuration satisfying the store invariant, after
`set(Interrupted)` (and symmetrically `set(Waiting)`) at time `t0` with no
further `set` calls, once the fixed 2000 ms delay has elapsed and the
timer fires, `get()` returns `Idle` and the timer handle is cleared. -/
theorem transient_expires_to_idle_C2 (t0 now : Nat) (s : AiState) (st : Store)
    (hInv : StoreInv st) (hs : s = AiState.interrupted ∨ s = AiState.waiting)
    (hnow : t0 + 2000 ≤ now) :
    (elapse now (setAiState t0 s st)).current = AiState.idle ∧
      (elapse now (setAiState t0 s st)).timerRef = none := by
  obtain ⟨pre, hdead, heq⟩ := setAiState_transient_spec t0 hs hInv
  rw [heq]
  rw [elapse_fire_last rfl hdead hnow]
  exact ⟨rfl, rfl⟩

/-- Witness for C2: starting from the initial store, `set(Interrupted)` at
t=0 and elapsing to t=2000 yields `Idle` with no stored handle. -/
theorem transient_expires_to_idle_C2_witness :
    StoreInv initStore ∧
      (AiState.interrupted = AiState.interrupted ∨
        AiState.interrupted = AiState.waiting) ∧
      0 + 2000 ≤ 2000 ∧
      ((elapse 2000 (setAiState 0 AiState.interrupted initStore)).current
          = AiState.idle ∧
        (elapse 2000 (setAiState 0 AiState.interrupted initStore)).timerRef
          = none) :=
  ⟨storeInv_initStore, Or.inl rfl, by decide,
    transient_expires_to_idle_C2 0 2000 AiState.interrupted initStore
      storeInv_initStore (Or.inl rfl) (by decide)⟩

/-- Counterexample to claim C3 as stated: with `s2 = Interrupted`
(`set(Waiting)` at t=0, `set(Interrupted)` at t=1000, then waiting to
t=4000, which is past the original t=2000 deadline), `get()` returns
`Idle`, not the second state `s2`: the second transient's own timer has
expired. The claim's universal "for every state s2 ... waiting past the
original 2000 ms expiry deadline leaves get() equal to s2" is false. -/
theorem intervening_set_cancels_C3_counterexample :
    (elapse 4000 (setAiState 1000 AiState.interrupted
        (elapse 1000 (setAiState 0 AiState.waiting initStore)))).current
      = AiState.idle ∧
    ¬ (elapse 4000 (setAiState 1000 AiState.interrupted
        (elapse 1000 (setAiState 0 AiState.waiting initStore)))).current
      = AiState.interrupted := by
  decide

/-- Claim C3 as amended: the intervening `set(s2)` before the first expiry
cancels the pending timer, and no late auto-revert from the first
transient occurs; `get()` equals `s2` at any time past the original
deadline, provided (when `s2` is itself `Interrupted` or `Waiting`) the
wait does not also pass `s2`'s own 2000 ms deadline. -/
theorem intervening_set_cancels_C3 (t0 t1 now : Nat) (s2 : AiState)
    (st : Store) (hInv : StoreInv st) (ht1 : t1 < t0 + 2000)
    (hnow : t0 + 2000 ≤ now)
    (hs2 : (s2 = AiState.interrupted ∨ s2 = AiState.waiting) →
      now < t1 + 2000) :
    (elapse now (setAiState t1 s2
      (elapse t1 (setAiState t0 AiState.waiting st)))).current = s2 := by
  obtain ⟨pre, hdead, heq⟩ :=
    setAiState_transient_spec t0 (Or.inr rfl) hInv (s := AiState.waiting)
  have hInvMid : StoreInv (elapse t1 (setAiState t0 AiState.waiting st)) :=
    storeInv_elapse t1 (storeInv_setAiState t0 AiState.waiting hInv)
  have hnofire : elapse t1 (setAiState t0 AiState.waiting st)
      = setAiState t0 AiState.waiting st := by
    rw [heq]
    apply elapse_eq_self
    intro tm hm
    rcases List.mem_append.mp hm with h | h
    · exact Or.inl (hdead tm h)
    · rw [List.mem_singleton] at h
      subst h
      refine Or.inr ?_
      show ¬ t0 + expiryDelayMs ≤ t1
      unfold expiryDelayMs
      omega
  rw [hnofire] at hInvMid ⊢
  by_cases hs2t : s2 = AiState.interrupted ∨ s2 = AiState.waiting
  · obtain ⟨pre2, hdead2, heq2⟩ := setAiState_transient_spec t1 hs2t hInvMid
    rw [heq2]
    rw [elapse_eq_self]
    intro tm hm
    rcases List.mem_append.mp hm with h | h
    · exact Or.inl (hdead2 tm h)
    · rw [List.mem_singleton] at h
      subst h
      refine Or.inr ?_
      show ¬ t1 + expiryDelayMs ≤ now
      have := hs2 hs2t
      unfold expiryDelayMs
      omega
  · obtain ⟨ts2, hdead2, heq2⟩ := setAiState_stable_spec t1 hs2t hInvMid
    rw [heq2]
    rw [elapse_eq_self]
    intro tm hm
    exact Or.inl (hdead2 tm hm)

/-- Witness for the amended C3: `set(Waiting)` at t=0, `set(Listening)` at
t=1000, elapsing to t=2500 (past the original t=2000 deadline) leaves the
state `Listening`. -/
theorem intervening_set_cancels_C3_witness :
    StoreInv initStore ∧ 1000 < 0 + 2000 ∧ 0 + 2000 ≤ 2500 ∧
      ((AiState.listening = AiState.interrupted ∨
          AiState.listening = AiState.waiting) → 2500 < 1000 + 2000) ∧
      (elapse 2500 (setAiState 1000 AiState.listening
        (elapse 1000 (setAiState 0 AiState.waiting initStore)))).current
        = AiState.listening :=
  ⟨storeInv_initStore, by decide, by decide, by decide,
    intervening_set_cancels_C3 0 1000 2500 AiState.listening initStore
      storeInv_initStore (by decide) (by decide) (by decide)⟩

/-- Counterexample to claim C4 as stated: after `set(Interrupted)` at t=0
and `set(Interrupted)` again at t=1500, the state at t=3000 is still
`Interrupted`, not `Idle` — the second call re-arms the timer for
t=1500+2000=3500, so t=3000 is not "2000 ms after the second call". -/
theorem reenter_transient_C4_counterexample :
    ¬ (elapse 3000 (setAiState 1500 AiState.interrupted
        (elapse 1500 (setAiState 0 AiState.interrupted initStore)))).current
      = AiState.idle := by
  decide

/-- Claim C4 as amended: re-entering the same transient state resets the
expiry window: after `set(Interrupted)` at t=0 and `set(Interrupted)`
again at t=1500, the state is still `Interrupted` at t=2900 and at
t=3000, and it is `Idle` at t=3500 (2000 ms after the second call). -/
theorem reenter_transient_resets_window_C4 :
    (elapse 2900 (setAiState 1500 AiState.interrupted
        (elapse 1500 (setAiState 0 AiState.interrupted initStore)))).current
      = AiState.interrupted ∧
    (elapse 3000 (setAiState 1500 AiState.interrupted
        (elapse 1500 (setAiState 0 AiState.interrupted initStore)))).current
      = AiState.interrupted ∧
    (elapse 3500 (setAiState 1500 AiState.interrupted
        (elapse 1500 (setAiState 0 AiState.interrupted initStore)))).current
      = AiState.idle := by
  decide

/-- Claim C5: in every reachable store configuration at most one expiry
timer is pending, and a timer is pending exactly when the current state is
`Interrupted` or `Waiting`; reachability closes the initial configuration
under arbitrary `set` calls and timer firings, so both kinds of step
preserve the invariant. -/
theorem single_timer_invariant_C5 (st : Store) (h : Reachable st) :
    aliveCount st ≤ 1 ∧
      ((st.current = AiState.interrupted ∨ st.current = AiState.waiting) ↔
        aliveCount st = 1) := by
  have hInv := reachable_storeInv h
  cases href : st.timerRef with
  | some i =>
    obtain ⟨htr, pre, d, hts, hdead, -⟩ := storeInv_some hInv href
    have h1 : aliveCount st = 1 := aliveCount_last hts hdead
    rw [h1]
    exact ⟨Nat.le_refl 1, fun _ => rfl, fun _ => htr⟩
  | none =>
    obtain ⟨htr, hdead⟩ := storeInv_none hInv href
    have h0 : aliveCount st = 0 := aliveCount_deadAll hdead
    rw [h0]
    refine ⟨by omega, ?_, ?_⟩
    · intro h'
      exact absurd h' htr
    · intro h'
      exact absurd h' (by decide)

/-- Witness for C5 at the initial configuration. -/
theorem single_timer_invariant_C5_witness :
    Reachable initStore ∧
      (aliveCount initStore ≤ 1 ∧
        ((initStore.current = AiState.interrupted ∨
            initStore.current = AiState.waiting) ↔
          aliveCount initStore = 1)) :=
  ⟨Reachable.init, single_timer_invariant_C5 initStore Reachable.init⟩

/-- Claim C6: for every state `s`, after `set(s)` exactly one of the six
derived predicates is true, and it is the predicate matching `s`. -/
theorem exactly_one_predicate_C6 (now : Nat) (s : AiState) (st : Store) :
    countTrue (stateChecks (setAiState now s st).current) = 1 ∧
      checkFor s (stateChecks (setAiState now s st).current) = true := by
  rw [setAiState_current]
  cases s <;> decide

/-- Claim C7: `reset()` is equivalent to `set(Idle)` — definitionally in
the code — and from any configuration satisfying the store invariant it
leaves `current = Idle`, clears the stored handle and cancels every
pending expiry timer. -/
theorem reset_equiv_set_idle_C7 (now : Nat) (st : Store)
    (hInv : StoreInv st) :
    resetState now st = setAiState now AiState.idle st ∧
      (resetState now st).current = AiState.idle ∧
      (resetState now st).timerRef = none ∧
      aliveCount (resetState now st) = 0 := by
  obtain ⟨ts, hdead, heq⟩ :=
    setAiState_stable_spec now (s := AiState.idle) (by decide) hInv
  unfold resetState
  rw [heq]
  exact ⟨rfl, rfl, rfl, aliveCount_deadAll hdead⟩

/-- Witness for C7 at a configuration with an armed timer
(`set(Interrupted)` at t=0, reset at t=1). -/
theorem reset_equiv_set_idle_C7_witness :
    StoreInv (setAiState 0 AiState.interrupted initStore) ∧
      (resetState 1 (setAiState 0 AiState.interrupted initStore)
          = setAiState 1 AiState.idle
            (setAiState 0 AiState.interrupted initStore) ∧
        (resetState 1 (setAiState 0 AiState.interrupted initStore)).current
          = AiState.idle ∧
        (resetState 1 (setAiState 0 AiState.interrupted initStore)).timerRef
          = none ∧
        aliveCount (resetState 1 (setAiState 0 AiState.interrupted initStore))
          = 0) :=
  ⟨storeInv_setAiState 0 AiState.interrupted storeInv_initStore,
    reset_equiv_set_idle_C7 1 (setAiState 0 AiState.interrupted initStore)
      (storeInv_setAiState 0 AiState.interrupted storeInv_initStore)⟩

/-- Claim C8: every `set` call drives exactly one `setAiStateInternal`
broadcast — the notification path through which every subscriber
registered on the context receives the update — and the notified value is
the post-call value; this holds for every prior configuration, including
when the new state equals the current one. -/
theorem notify_once_per_set_C8 (now : Nat) (s : AiState) (st : Store) :
    (setAiState now s st).log = st.log ++ [s] ∧
      (setAiState now s st).current = s :=
  ⟨setAiState_log now s st, setAiState_current now s st⟩

/-- Claim C9: reading the store outside a provider scope yields exactly
one kind of error (`UsageError`, fail fast) rather than a default value;
inside a valid scope the context is returned as-is, and `set` accepts
every enumeration value unconditionally and cannot fail. -/
theorem usage_error_outside_provider_C9 :
    useAiState none = Except.error (UsageError.usage
      "useAiState must be used within a AiStateProvider") ∧
    (∀ c, useAiState (some c) = Except.ok c) ∧
    (∀ (now : Nat) (s : AiState) (st : Store),
      (setAiState now s st).current = s) :=
  ⟨rfl, fun _ => rfl, fun now s st => setAiState_current now s st⟩

/-- Claim C10: the store is history-free (last write wins): from any
configuration satisfying the store invariant, `set(s1)` at `t1`
immediately followed by `set(s2)` at `t2` (before any timer fires) is
observationally the same as `set(s2)` alone — `current = s2`, the pending
deadlines agree, a timer is armed iff `s2` is transient, and an armed
timer expires 2000 ms after the second call. -/
theorem last_write_wins_C10 (t1 t2 : Nat) (s1 s2 : AiState) (st : Store)
    (hInv : StoreInv st)
    (hbefore : (s1 = AiState.interrupted ∨ s1 = AiState.waiting) →
      t2 < t1 + 2000) :
    (setAiState t2 s2 (elapse t2 (setAiState t1 s1 st))).current = s2 ∧
    (setAiState t2 s2 st).current = s2 ∧
    aliveDeadlines (setAiState t2 s2 (elapse t2 (setAiState t1 s1 st)))
      = aliveDeadlines (setAiState t2 s2 st) ∧
    ((s2 = AiState.interrupted ∨ s2 = AiState.waiting) →
      aliveDeadlines (setAiState t2 s2 (elapse t2 (setAiState t1 s1 st)))
        = [t2 + 2000]) ∧
    (¬(s2 = AiState.interrupted ∨ s2 = AiState.waiting) →
      aliveDeadlines (setAiState t2 s2 (elapse t2 (setAiState t1 s1 st)))
        = []) ∧
    (setAiState t2 s2 (elapse t2 (setAiState t1 s1 st))).timerRef.isSome
      = (setAiState t2 s2 st).timerRef.isSome := by
  have hInvMid : StoreInv (elapse t2 (setAiState t1 s1 st)) :=
    storeInv_elapse t2 (storeInv_setAiState t1 s1 hInv)
  refine ⟨setAiState_current _ _ _, setAiState_current _ _ _, ?_, ?_, ?_, ?_⟩
  · by_cases hs2 : s2 = AiState.interrupted ∨ s2 = AiState.waiting
    · rw [aliveDeadlines_setAiState_transient t2 hs2 hInvMid,
        aliveDeadlines_setAiState_transient t2 hs2 hInv]
    · rw [aliveDeadlines_setAiState_stable t2 hs2 hInvMid,
        aliveDeadlines_setAiState_stable t2 hs2 hInv]
  · intro hs2
    rw [aliveDeadlines_setAiState_transient t2 hs2 hInvMid]
    rfl
  · intro hs2
    rw [aliveDeadlines_setAiState_stable t2 hs2 hInvMid]
  · by_cases hs2 : s2 = AiState.interrupted ∨ s2 = AiState.waiting
    · rw [setAiState_timerRef_isSome_transient t2 hs2 hInvMid,
        setAiState_timerRef_isSome_transient t2 hs2 hInv]
    · rw [setAiState_timerRef_stable t2 hs2 hInvMid,
        setAiState_timerRef_stable t2 hs2 hInv]

/-- Witness for C10: `set(Waiting)` at t=0 then `set(ThinkingSpeaking)` at
t=100 from the initial store. -/
theorem last_write_wins_C10_witness :
    StoreInv initStore ∧
      ((AiState.waiting = AiState.interrupted ∨
          AiState.waiting = AiState.waiting) → 100 < 0 + 2000) ∧
      ((setAiState 100 AiState.thinkingSpeaking
          (elapse 100 (setAiState 0 AiState.waiting initStore))).current
          = AiState.thinkingSpeaking ∧
        (setAiState 100 AiState.thinkingSpeaking initStore).current
          = AiState.thinkingSpeaking ∧
        aliveDeadlines (setAiState 100 AiState.thinkingSpeaking
            (elapse 100 (setAiState 0 AiState.waiting initStore)))
          = aliveDeadlines (setAiState 100 AiState.thinkingSpeaking initStore) ∧
        ((AiState.thinkingSpeaking = AiState.interrupted ∨
            AiState.thinkingSpeaking = AiState.waiting) →
          aliveDeadlines (setAiState 100 AiState.thinkingSpeaking
              (elapse 100 (setAiState 0 AiState.waiting initStore)))
            = [100 + 2000]) ∧
        (¬(AiState.thinkingSpeaking = AiState.interrupted ∨
            AiState.thinkingSpeaking = AiState.waiting) →
          aliveDeadlines (setAiState 100 AiState.thinkingSpeaking
              (elapse 100 (setAiState 0 AiState.waiting initStore)))
            = []) ∧
        (setAiState 100 AiState.thinkingSpeaking
            (elapse 100 (setAiState 0 AiState.waiting initStore))).timerRef.isSome
          = (setAiState 100 AiState.thinkingSpeaking initStore).timerRef.isSome) :=
  ⟨storeInv_initStore, by decide,
    last_write_wins_C10 0 100 AiState.waiting AiState.thinkingSpeaking
      initStore storeInv_initStore (by decide)⟩
